import Mathlib

/-!
Verification of the secret-bundle resolution engine of the OCI Secrets Store
CSI Driver Provider.

The development shallowly embeds the Go sources:
  * internal/types/types.go        (Stage, SecretBundleRequest, SecretBundle,
                                    SecretBundleContent.Decode, AuthConfig)
  * internal/service/secret_service.go  (OCISecretService.GetSecretBundles,
                                    getSecretBundle, checkNameDuplication,
                                    mapToOCIRequest, mapOCIResponseToSecretBundle)
  * internal/server/server.go      (ProviderServer.createResponse,
                                    mapBundleToSecretResponse)

Go errors are modelled as their message strings; fallible functions return
Except String.  The OCI Vault client (an interface in the source) is modelled
as a pure function from requests to responses.  The in-place mutation that the
service performs on the caller's request slice, and the network calls that it
issues, are made explicit in the returned ServiceOutcome record.
-/

namespace OCIProvider

/-! ## Stage (types.go) -/

/-- Stage of a secret version.  `None` is the Go zero value (stage undefined). -/
inductive Stage where
  | None
  | Current
  | Pending
  | Latest
  | Previous
  | Deprecated
deriving DecidableEq, Repr

/-- Stage.String: `None` maps to the empty string, other stages to their
uppercase token via stageMapping. -/
def Stage.toString : Stage → String
  | Stage.None => ""
  | Stage.Current => "CURRENT"
  | Stage.Pending => "PENDING"
  | Stage.Latest => "LATEST"
  | Stage.Previous => "PREVIOUS"
  | Stage.Deprecated => "DEPRECATED"

/-- Stage.FromString: the empty string yields `None`; otherwise the value is
compared against the (pairwise distinct) values of stageMapping, and an
unmatched token is the error "unknown stage: ...". -/
def Stage.FromString (value : String) : Except String Stage :=
  if value = "" then Except.ok Stage.None
  else if value = "CURRENT" then Except.ok Stage.Current
  else if value = "PENDING" then Except.ok Stage.Pending
  else if value = "LATEST" then Except.ok Stage.Latest
  else if value = "PREVIOUS" then Except.ok Stage.Previous
  else if value = "DEPRECATED" then Except.ok Stage.Deprecated
  else Except.error ("unknown stage: " ++ value)

/-! ## strings.TrimSpace model

Go's strings.TrimSpace removes leading and trailing characters for which
unicode.IsSpace holds.  We model the space class over the Latin-1 range
(' ', TAB, LF, VT, FF, CR, NEL, NBSP); higher Unicode space code points
behave the same way in Go and are outside the alphabets used here. -/

/-- unicode.IsSpace, restricted to the Latin-1 range. -/
def goIsSpace (c : Char) : Bool :=
  c = ' ' || c = '\t' || c = '\n' || c.toNat = 11 || c.toNat = 12 ||
    c.toNat = 13 || c.toNat = 133 || c.toNat = 160

/-- strings.TrimSpace as trimming of the character list on both sides. -/
def goTrimSpace (s : String) : String :=
  String.mk (((s.data.dropWhile goIsSpace).reverse.dropWhile goIsSpace).reverse)

/-! ## Request and bundle types (types.go) -/

/-- SecretBundleRequest with yaml fields name, stage, versionNumber, fileName.
VersionNumber is an int64 in Go, zero meaning "not set". -/
structure SecretBundleRequest where
  Name : String
  Stage : Stage
  VersionNumber : Int
  FileName : String
deriving DecidableEq, Repr

/-- determineFileName: the trimmed alias when it is non-empty, otherwise the
trimmed name. -/
def determineFileName (name : String) (aliasArg : String) : String :=
  let fileName := goTrimSpace name
  let fileAlias := goTrimSpace aliasArg
  if fileAlias.length > 0 then fileAlias else fileName

/-- SecretBundleRequest.GetFilePath. -/
def SecretBundleRequest.GetFilePath (request : SecretBundleRequest) : String :=
  determineFileName request.Name request.FileName

/-- ContentType is an int in Go; Base64 is its only named constant. -/
abbrev ContentType := Int

/-- The Base64 content type (iota = 0). -/
def Base64 : ContentType := 0

/-- SecretBundleContent holds the declared encoding and the raw content. -/
structure SecretBundleContent where
  ContentType : ContentType
  Content : String
deriving DecidableEq, Repr

/-- SecretBundle as produced by mapOCIResponseToSecretBundle. -/
structure SecretBundle where
  ID : String
  Name : String
  VersionNumber : Int
  FileName : String
  Stages : List Stage
  BundleContent : SecretBundleContent
deriving DecidableEq, Repr

/-- SecretBundle.GetFilePath. -/
def SecretBundle.GetFilePath (bundle : SecretBundle) : String :=
  determineFileName bundle.Name bundle.FileName

/-! ## encoding/base64 StdEncoding model

Model of Go's base64.StdEncoding.DecodeString: input is consumed in quanta of
four alphabet characters (newline characters are skipped anywhere), a final
quantum may use '=' padding, and on a corrupt input the bytes decoded before
the corruption are still returned together with the error. -/

/-- Index of a character in the standard base64 alphabet. -/
def b64Index (c : Char) : Option Nat :=
  if 'A' ≤ c ∧ c ≤ 'Z' then some (c.toNat - 65)
  else if 'a' ≤ c ∧ c ≤ 'z' then some (c.toNat - 71)
  else if '0' ≤ c ∧ c ≤ '9' then some (c.toNat + 4)
  else if c = '+' then some 62
  else if c = '/' then some 63
  else none

/-- Skip the newline characters that Go's decoder ignores. -/
def skipNewlines : List Char → List Char
  | [] => []
  | c :: rest => if c = '\n' ∨ c = '\r' then skipNewlines rest else c :: rest

/-- Outcome of decoding one quantum: continue with the rest of the input,
clean end of input, or corrupt input. -/
inductive QuantumStatus where
  | more
  | done
  | corrupt
deriving DecidableEq, Repr

/-- The three bytes of a full 4-character quantum. -/
def quantumBytes3 (v0 v1 v2 v3 : Nat) : List Nat :=
  let val := v0 * 262144 + v1 * 4096 + v2 * 64 + v3
  [val / 65536 % 256, val / 256 % 256, val % 256]

/-- The two bytes of a quantum padded as "xyz=". -/
def quantumBytes2 (v0 v1 v2 : Nat) : List Nat :=
  let val := v0 * 262144 + v1 * 4096 + v2 * 64
  [val / 65536 % 256, val / 256 % 256]

/-- The single byte of a quantum padded as "xy==". -/
def quantumBytes1 (v0 v1 : Nat) : List Nat :=
  let val := v0 * 262144 + v1 * 4096
  [val / 65536 % 256]

/-- Decode one quantum, following Go's decodeQuantum for StdEncoding:
padding is mandatory for a trailing partial quantum, '=' may appear only at
positions 2 and 3, "xy==" needs the second '=', and data after a padded
quantum is trailing garbage (its bytes are still produced). -/
def decodeQuantum (src : List Char) : List Nat × List Char × QuantumStatus :=
  match skipNewlines src with
  | [] => ([], [], QuantumStatus.done)
  | c0 :: r0 =>
    match b64Index c0 with
    | none => ([], r0, QuantumStatus.corrupt)
    | some v0 =>
      match skipNewlines r0 with
      | [] => ([], [], QuantumStatus.corrupt)
      | c1 :: r1 =>
        match b64Index c1 with
        | none => ([], r1, QuantumStatus.corrupt)
        | some v1 =>
          match skipNewlines r1 with
          | [] => ([], [], QuantumStatus.corrupt)
          | c2 :: r2 =>
            match b64Index c2 with
            | some v2 =>
              match skipNewlines r2 with
              | [] => ([], [], QuantumStatus.corrupt)
              | c3 :: r3 =>
                match b64Index c3 with
                | some v3 => (quantumBytes3 v0 v1 v2 v3, r3, QuantumStatus.more)
                | none =>
                  if c3 = '=' then
                    match skipNewlines r3 with
                    | [] => (quantumBytes2 v0 v1 v2, [], QuantumStatus.done)
                    | _ :: _ => (quantumBytes2 v0 v1 v2, r3, QuantumStatus.corrupt)
                  else ([], r3, QuantumStatus.corrupt)
            | none =>
              if c2 = '=' then
                match skipNewlines r2 with
                | [] => ([], [], QuantumStatus.corrupt)
                | c3 :: r3 =>
                  if c3 = '=' then
                    match skipNewlines r3 with
                    | [] => (quantumBytes1 v0 v1, [], QuantumStatus.done)
                    | _ :: _ => (quantumBytes1 v0 v1, r3, QuantumStatus.corrupt)
                  else ([], r3, QuantumStatus.corrupt)
              else ([], r2, QuantumStatus.corrupt)

/-- Decode loop over quanta.  The Boolean is the error flag; the byte list is
what Go's Decode has written when it stops (also on a corrupt input).  The
fuel is an upper bound on the number of quanta; callers pass length + 1,
which always suffices since a quantum consumes at least one character. -/
def b64DecodeLoop : Nat → List Char → List Nat × Bool
  | 0, _ => ([], true)
  | fuel + 1, src =>
    match decodeQuantum src with
    | (bytes, _, QuantumStatus.done) => (bytes, false)
    | (bytes, _, QuantumStatus.corrupt) => (bytes, true)
    | (bytes, rest, QuantumStatus.more) =>
      match b64DecodeLoop fuel rest with
      | (bs, err) => (bytes ++ bs, err)

/-- base64.StdEncoding.DecodeString: the decoded bytes as a string (Go returns
the byte prefix written so far even on error) and the error flag. -/
def base64DecodeString (s : String) : String × Bool :=
  match b64DecodeLoop (s.data.length + 1) s.data with
  | (bytes, err) => (String.mk (bytes.map (fun b => Char.ofNat b)), err)

/-- SecretBundleContent.Decode: empty content and non-Base64 content types are
rejected before decoding; otherwise Go returns string(decodedContent) together
with the decode error, so on a corrupt input the decoded prefix accompanies
the error.  The pair mirrors Go's (string, error) return. -/
def SecretBundleContent.Decode (content : SecretBundleContent) : String × Option String :=
  if content.Content = "" then ("", some "missed secret content")
  else if content.ContentType ≠ Base64 then ("", some "unknown content type")
  else
    match base64DecodeString content.Content with
    | (decoded, true) => (decoded, some "illegal base64 data")
    | (decoded, false) => (decoded, none)

/-! ## OCI SDK request/response shapes (as used by secret_service.go) -/

/-- secrets.GetSecretBundleByNameRequest as populated by mapToOCIRequest.
The Stage field is the SDK enum whose zero value is the empty string. -/
structure OCIRequest where
  SecretName : String
  VaultId : String
  VersionNumber : Option Int
  Stage : String
deriving DecidableEq, Repr

/-- The SecretBundleContent union of the SDK: either Base64 details or some
other implementation of the interface. -/
inductive OCIBundleContentDetails where
  | base64Details (Content : String)
  | otherDetails
deriving DecidableEq, Repr

/-- secrets.GetSecretBundleByNameResponse (the SecretBundle part used by the
service).  Stages carries the raw enum tokens sent by the remote side. -/
structure OCIResponse where
  SecretId : String
  VersionNumber : Int
  ContentDetails : OCIBundleContentDetails
  Stages : List String
deriving DecidableEq, Repr

/-- The stage tokens recognized by the SDK's
GetMappingGetSecretBundleByNameStageEnum. -/
def ociStageTokens : List String :=
  ["CURRENT", "PENDING", "LATEST", "PREVIOUS", "DEPRECATED"]

/-- mapToOCIRequest: version number only when non-zero; the SDK stage enum
only when the request stage is set and its token is recognized. -/
def mapToOCIRequest (vaultID : String) (request : SecretBundleRequest) : OCIRequest :=
  let base : OCIRequest :=
    { SecretName := request.Name, VaultId := vaultID, VersionNumber := none, Stage := "" }
  let withVersion :=
    if request.VersionNumber ≠ 0
    then { base with VersionNumber := some request.VersionNumber } else base
  let stageToken := request.Stage.toString
  if request.Stage ≠ Stage.None ∧ stageToken ∈ ociStageTokens
  then { withVersion with Stage := stageToken } else withVersion

/-- The stage-mapping loop of mapOCIResponseToSecretBundle: each remote token
is parsed with Stage.FromString, the first unknown token aborts. -/
def mapStagesFromStrings : List String → Except String (List Stage)
  | [] => Except.ok []
  | s :: rest =>
    match Stage.FromString s with
    | Except.error e => Except.error e
    | Except.ok stage =>
      match mapStagesFromStrings rest with
      | Except.error e => Except.error e
      | Except.ok stages => Except.ok (stage :: stages)

/-- mapOCIResponseToSecretBundle: the content details must be the Base64
variant; remote stage tokens are parsed; the bundle keeps the request's name
and file alias and the remote id and version. -/
def mapOCIResponseToSecretBundle (response : OCIResponse)
    (request : SecretBundleRequest) : Except String SecretBundle :=
  match response.ContentDetails with
  | OCIBundleContentDetails.otherDetails => Except.error "unable to cast secret content"
  | OCIBundleContentDetails.base64Details content =>
    match mapStagesFromStrings response.Stages with
    | Except.error e => Except.error e
    | Except.ok stages =>
      Except.ok
        { ID := response.SecretId
          Name := request.Name
          VersionNumber := response.VersionNumber
          Stages := stages
          FileName := request.FileName
          BundleContent := { ContentType := Base64, Content := content } }

/-! ## OCISecretService (secret_service.go)

The OCISecretClient interface has the single method GetSecretBundleByName; we
model a client as a pure function from requests to responses.  The factory
step (createConfigProvider / createSecretClient) is abstracted away by passing
the already-constructed client; a factory failure would return an error before
any fetch, exactly like a duplication error, so the claims below are not
affected by this abstraction. -/

/-- A (mock or real) OCI Vault client. -/
abbrev OCISecretClient := OCIRequest → Except String OCIResponse

/-- Result of getSecretBundle.  `req` is the request object after the call:
Go receives a pointer and writes the defaulted stage through it, so the
caller observes the mutation.  `calls` lists the network requests issued. -/
structure FetchResult where
  req : SecretBundleRequest
  calls : List OCIRequest
  result : Except String SecretBundle
deriving Repr

/-- getSecretBundle: empty names are rejected; a request with neither version
nor stage gets Stage = Current written into it; version and stage together
are ambiguous; then the single network call is issued and its response is
mapped.  A client error is replaced by a fixed message. -/
def getSecretBundle (client : OCISecretClient) (vaultID : String)
    (request : SecretBundleRequest) : FetchResult :=
  if request.Name = "" then
    { req := request, calls := [], result := Except.error "missed secret name" }
  else
    let request :=
      if request.VersionNumber = 0 ∧ request.Stage = Stage.None
      then { request with Stage := Stage.Current } else request
    if request.VersionNumber ≠ 0 ∧ request.Stage ≠ Stage.None then
      { req := request, calls := []
        result := Except.error "secret should be identified either with a version number or with stage" }
    else
      let ociRequest := mapToOCIRequest vaultID request
      match client ociRequest with
      | Except.error _ =>
        { req := request, calls := [ociRequest]
          result := Except.error "unable to retrieve secret from vault" }
      | Except.ok response =>
        { req := request, calls := [ociRequest]
          result := mapOCIResponseToSecretBundle response request }

/-- The loop body of checkNameDuplication.  Go counts file names in a map and
stops at the first name whose count exceeds one; `seen` is the set of file
names of the requests already visited. -/
def checkNameDuplicationAux (seen : List String) :
    List SecretBundleRequest → Option String
  | [] => none
  | request :: rest =>
    let fileName := request.GetFilePath
    if fileName ∈ seen then
      if fileName = request.Name then
        some ("duplicated secret name: " ++ request.Name)
      else
        some ("duplicated fileName name: " ++ request.FileName)
    else checkNameDuplicationAux (fileName :: seen) rest

/-- checkNameDuplication over the whole batch. -/
def checkNameDuplication (requests : List SecretBundleRequest) : Option String :=
  checkNameDuplicationAux [] requests

/-- Observable outcome of GetSecretBundles: the request batch after the call
(Go mutates the pointed-to requests), the network calls issued in order, and
the returned bundles or the single error. -/
structure ServiceOutcome where
  requests : List SecretBundleRequest
  calls : List OCIRequest
  result : Except String (List SecretBundle)
deriving Repr

/-- The fetch loop of GetSecretBundles: requests are processed in order and
the first error aborts the whole batch, discarding the bundles fetched so
far. -/
def runRequests (client : OCISecretClient) (vaultID : String) :
    List SecretBundleRequest → ServiceOutcome
  | [] => { requests := [], calls := [], result := Except.ok [] }
  | r :: rest =>
    let fr := getSecretBundle client vaultID r
    match fr.result with
    | Except.error e =>
      { requests := fr.req :: rest, calls := fr.calls, result := Except.error e }
    | Except.ok bundle =>
      let out := runRequests client vaultID rest
      { requests := fr.req :: out.requests
        calls := fr.calls ++ out.calls
        result :=
          match out.result with
          | Except.error e => Except.error e
          | Except.ok bundles => Except.ok (bundle :: bundles) }

/-- GetSecretBundles: an empty batch is a hard error, then duplicated file
names are rejected, and only then are the secrets fetched one by one. -/
def GetSecretBundles (client : OCISecretClient) (requests : List SecretBundleRequest)
    (vaultID : String) : ServiceOutcome :=
  if requests.length = 0 then
    { requests := requests, calls := []
      result := Except.error "requested secrets are missed" }
  else
    match checkNameDuplication requests with
    | some e => { requests := requests, calls := [], result := Except.error e }
    | none => runRequests client vaultID requests

/-! ## ProviderServer response assembly (server.go) -/

/-- provider.File: contents are the decoded plain text. -/
structure File where
  Path : String
  Contents : String
  Mode : Int
deriving DecidableEq, Repr

/-- provider.ObjectVersion. -/
structure ObjectVersion where
  Id : String
  Version : String
deriving DecidableEq, Repr

/-- provider.MountResponse: the two index-aligned arrays. -/
structure MountResponse where
  Files : List File
  ObjectVersion : List ObjectVersion
deriving DecidableEq, Repr

/-- mapBundleToSecretResponse: decode the bundle content (a decode error
aborts), then emit the file entry and the version entry for the bundle. -/
def mapBundleToSecretResponse (bundle : SecretBundle) (filePermission : Int) :
    Except String (File × ObjectVersion) :=
  match bundle.BundleContent.Decode with
  | (_, some e) => Except.error e
  | (secretContent, none) =>
    Except.ok
      ({ Path := bundle.GetFilePath, Contents := secretContent, Mode := filePermission },
       { Id := bundle.ID, Version := ToString.toString bundle.VersionNumber })

/-- The loop of createResponse collecting one (file, version) pair per
bundle, aborting on the first error. -/
def createResponseAux (filePermission : Int) :
    List SecretBundle → Except String (List (File × ObjectVersion))
  | [] => Except.ok []
  | bundle :: rest =>
    match mapBundleToSecretResponse bundle filePermission with
    | Except.error e => Except.error e
    | Except.ok fv =>
      match createResponseAux filePermission rest with
      | Except.error e => Except.error e
      | Except.ok fvs => Except.ok (fv :: fvs)

/-- createResponse: the Files and ObjectVersion arrays filled index-aligned
from the bundles. -/
def createResponse (secretBundles : List SecretBundle) (filePermission : Int) :
    Except String MountResponse :=
  match createResponseAux filePermission secretBundles with
  | Except.error e => Except.error e
  | Except.ok fvs =>
    Except.ok { Files := fvs.map Prod.fst, ObjectVersion := fvs.map Prod.snd }

/-! ## AuthConfig validation (types.go) -/

/-- AuthConfig for the user principal. -/
structure AuthConfig where
  Region : String
  TenancyID : String
  UserID : String
  PrivateKey : String
  Fingerprint : String
  Passphrase : String
deriving DecidableEq, Repr

/-- field.Error: the path of the offending field and the detail message. -/
structure FieldError where
  Field : String
  Detail : String
deriving DecidableEq, Repr

/-- validateConfig: one Required error is appended per empty required field,
in source order; the loop never stops early. -/
def validateConfig (c : AuthConfig) : List FieldError :=
  (if c.TenancyID.length = 0 then
    [{ Field := "Auth.Tenancy", Detail := "Tenancy is required for user principal" }] else []) ++
  (if c.Region.length = 0 then
    [{ Field := "Auth.Region", Detail := "Region is required for user principal" }] else []) ++
  (if c.Fingerprint.length = 0 then
    [{ Field := "Auth.Fingerprint", Detail := "Fingerprint is required for user principal" }] else []) ++
  (if c.UserID.length = 0 then
    [{ Field := "Auth.UserID", Detail := "UserID is required for user principal" }] else []) ++
  (if c.PrivateKey.length = 0 then
    [{ Field := "Auth.PrivateKey", Detail := "PrivateKey is required for user principal" }] else [])

/-- AuthConfig.Validate: ErrorList.ToAggregate is nil exactly when the list
is empty. -/
def AuthConfig.Validate (c : AuthConfig) : Option (List FieldError) :=
  if validateConfig c = [] then none else some (validateConfig c)

/-! ## Concrete fixtures used by witnesses and counterexamples -/

/-- A client for which every fetch succeeds with a fixed bundle
(content "QQ==", i.e. plain text "A", version 2, stage CURRENT). -/
def okClient : OCISecretClient := fun _ =>
  Except.ok
    { SecretId := "id1", VersionNumber := 2
      ContentDetails := OCIBundleContentDetails.base64Details "QQ=="
      Stages := ["CURRENT"] }

/-- A client for which every fetch fails. -/
def failClient : OCISecretClient := fun _ => Except.error "secret not found"

/-- A plain valid request. -/
def reqA : SecretBundleRequest :=
  { Name := "a", Stage := Stage.None, VersionNumber := 0, FileName := "" }

/-- A request with both a stage and a version number. -/
def reqBoth : SecretBundleRequest :=
  { Name := "b", Stage := Stage.Current, VersionNumber := 5, FileName := "" }

/-- First entry of the duplication counterexample: alias "bar". -/
def c2a : SecretBundleRequest :=
  { Name := "foo", Stage := Stage.None, VersionNumber := 0, FileName := "bar" }

/-- Second entry of the duplication counterexample: name "bar", no alias. -/
def c2b : SecretBundleRequest :=
  { Name := "bar", Stage := Stage.None, VersionNumber := 0, FileName := "" }

/-- First entry of the duplicated-alias witness. -/
def c2c : SecretBundleRequest :=
  { Name := "a", Stage := Stage.None, VersionNumber := 0, FileName := "" }

/-- Second entry of the duplicated-alias witness: alias colliding with "a". -/
def c2d : SecretBundleRequest :=
  { Name := "x", Stage := Stage.None, VersionNumber := 0, FileName := "a" }

/-- Request whose alias trims to a different string. -/
def c4req : SecretBundleRequest :=
  { Name := "foo", Stage := Stage.None, VersionNumber := 0, FileName := " x " }

/-- The bundle okClient yields for c4req. -/
def c4bundle : SecretBundle :=
  { ID := "id1", Name := "foo", VersionNumber := 2, FileName := " x "
    Stages := [Stage.Current]
    BundleContent := { ContentType := Base64, Content := "QQ==" } }

/-- The mount response assembled from c4bundle with permission 420. -/
def c4resp : MountResponse :=
  { Files := [{ Path := "x", Contents := "A", Mode := 420 }]
    ObjectVersion := [{ Id := "id1", Version := "2" }] }

/-- Request with neither stage nor version set. -/
def c9req : SecretBundleRequest :=
  { Name := "hello", Stage := Stage.None, VersionNumber := 0, FileName := "" }

/-- The bundle okClient yields for c9req. -/
def c9bundle : SecretBundle :=
  { ID := "id1", Name := "hello", VersionNumber := 2, FileName := ""
    Stages := [Stage.Current]
    BundleContent := { ContentType := Base64, Content := "QQ==" } }

/-- Bundle whose content is malformed base64 with a decodable prefix. -/
def c10bundle : SecretBundle :=
  { ID := "id1", Name := "foo", VersionNumber := 1, FileName := ""
    Stages := [Stage.Current]
    BundleContent := { ContentType := Base64, Content := "QUJD!" } }

/-! ## Helper lemmas -/

deriving instance DecidableEq for Except

theorem string_length_eq_zero (s : String) : s.length = 0 ↔ s = "" := by
  cases s with
  | mk data =>
    cases data with
    | nil => simp
    | cons c cs => simp [String.length, String.ext_iff]

theorem forallTwo_mem_left {α β : Type} {R : α → β → Prop} :
    ∀ {l1 : List α} {l2 : List β}, List.Forall₂ R l1 l2 → ∀ r ∈ l1, ∃ b, R r b := by
  intro l1 l2 h
  induction h with
  | nil => intro r hr; cases hr
  | cons hab _ ih =>
    intro r hr
    rcases List.mem_cons.mp hr with rfl | hr
    · exact ⟨_, hab⟩
    · exact ih r hr

end OCIProvider

namespace OCIProvider

/-! ## Claim C5 -/

/-- Claim C5: for an empty (or absent) request batch, GetSecretBundles
returns a hard error (never a successful empty result) and attempts no
network call. -/
theorem C5_empty_batch (client : OCISecretClient) (vaultID : String) :
    (GetSecretBundles client [] vaultID).result =
      Except.error "requested secrets are missed"
    ∧ (GetSecretBundles client [] vaultID).calls = [] :=
  ⟨rfl, rfl⟩

/-! ## Claim C6 -/

/-- Claim C6: every enumerated Stage except None round-trips through its
exact uppercase token; None serializes to the empty string and the empty
string parses back to None; every other token is rejected with the
unknown-stage error. -/
theorem C6_stage_round_trip :
    (∀ s : Stage, s ≠ Stage.None → Stage.FromString s.toString = Except.ok s)
    ∧ Stage.None.toString = ""
    ∧ Stage.FromString "" = Except.ok Stage.None
    ∧ (∀ value : String,
        value ∉ ["", "CURRENT", "PENDING", "LATEST", "PREVIOUS", "DEPRECATED"] →
        Stage.FromString value = Except.error ("unknown stage: " ++ value)) := by
  refine ⟨?_, rfl, rfl, ?_⟩
  · intro s hs
    cases s
    · exact absurd rfl hs
    all_goals rfl
  · intro value hv
    simp only [List.mem_cons, List.not_mem_nil, or_false, not_or] at hv
    obtain ⟨h0, h1, h2, h3, h4, h5⟩ := hv
    simp only [Stage.FromString, if_neg h0, if_neg h1, if_neg h2, if_neg h3,
      if_neg h4, if_neg h5]

/-- Witness for C6 at the stage Current and at the unknown token "current". -/
theorem C6_witness :
    Stage.FromString (Stage.toString Stage.Current) = Except.ok Stage.Current
    ∧ Stage.FromString "current" = Except.error ("unknown stage: " ++ "current") :=
  ⟨C6_stage_round_trip.1 Stage.Current (by decide),
   C6_stage_round_trip.2.2.2 "current" (by decide)⟩

/-! ## Claim C7 -/

/-- Claim C7: Decode fails with the content-missing error whenever the raw
content is empty, regardless of the declared encoding; fails with the
unsupported-encoding error when the encoding is not Base64; fails with a
decode error on malformed base64; and succeeds exactly when the content is
non-empty, the encoding is Base64 and the content is well-formed base64. -/
theorem C7_decode_guards (c : SecretBundleContent) :
    (c.Content = "" → c.Decode = ("", some "missed secret content"))
    ∧ (c.Content ≠ "" → c.ContentType ≠ Base64 →
        c.Decode = ("", some "unknown content type"))
    ∧ (c.Content ≠ "" → c.ContentType = Base64 →
        (base64DecodeString c.Content).2 = true →
        (c.Decode).2 = some "illegal base64 data")
    ∧ ((c.Decode).2 = none ↔
        c.Content ≠ "" ∧ c.ContentType = Base64 ∧
          (base64DecodeString c.Content).2 = false) := by
  refine ⟨?_, ?_, ?_, ?_⟩
  · intro h; simp [SecretBundleContent.Decode, h]
  · intro h1 h2; simp [SecretBundleContent.Decode, h1, h2]
  · intro h1 h2 h3
    rcases hbd : base64DecodeString c.Content with ⟨d, err⟩
    rw [hbd] at h3
    simp only at h3
    subst h3
    simp [SecretBundleContent.Decode, h1, h2, hbd]
  · by_cases h1 : c.Content = ""
    · simp [SecretBundleContent.Decode, h1]
    · by_cases h2 : c.ContentType = Base64
      · rcases hbd : base64DecodeString c.Content with ⟨d, err⟩
        cases err <;> simp [SecretBundleContent.Decode, h1, h2, hbd]
      · simp [SecretBundleContent.Decode, h1, h2]

/-- Witness for C7: empty content, wrong encoding, malformed base64. -/
theorem C7_witness :
    SecretBundleContent.Decode { ContentType := Base64, Content := "" } =
      ("", some "missed secret content")
    ∧ SecretBundleContent.Decode { ContentType := 1, Content := "QQ==" } =
        ("", some "unknown content type")
    ∧ (SecretBundleContent.Decode { ContentType := Base64, Content := "%%" }).2 =
        some "illegal base64 data" :=
  ⟨(C7_decode_guards { ContentType := Base64, Content := "" }).1 rfl,
   (C7_decode_guards { ContentType := 1, Content := "QQ==" }).2.1 (by decide) (by decide),
   (C7_decode_guards { ContentType := Base64, Content := "%%" }).2.2.1
     (by decide) rfl (by decide)⟩

/-! ## Claim C8 -/

/-- Claim C8: user-principal AuthConfig validation reports each missing
required field individually, collects all violations instead of stopping at
the first, succeeds exactly when the five required fields are non-empty, and
ignores the passphrase. -/
theorem C8_auth_validation (c : AuthConfig) :
    (c.Validate = none ↔
      c.TenancyID ≠ "" ∧ c.Region ≠ "" ∧ c.Fingerprint ≠ "" ∧
        c.UserID ≠ "" ∧ c.PrivateKey ≠ "")
    ∧ (({ Field := "Auth.Tenancy", Detail := "Tenancy is required for user principal" }
          : FieldError) ∈ validateConfig c ↔ c.TenancyID = "")
    ∧ (({ Field := "Auth.Region", Detail := "Region is required for user principal" }
          : FieldError) ∈ validateConfig c ↔ c.Region = "")
    ∧ (({ Field := "Auth.Fingerprint", Detail := "Fingerprint is required for user principal" }
          : FieldError) ∈ validateConfig c ↔ c.Fingerprint = "")
    ∧ (({ Field := "Auth.UserID", Detail := "UserID is required for user principal" }
          : FieldError) ∈ validateConfig c ↔ c.UserID = "")
    ∧ (({ Field := "Auth.PrivateKey", Detail := "PrivateKey is required for user principal" }
          : FieldError) ∈ validateConfig c ↔ c.PrivateKey = "")
    ∧ (validateConfig c).length =
        (if c.TenancyID = "" then 1 else 0) + (if c.Region = "" then 1 else 0) +
        (if c.Fingerprint = "" then 1 else 0) + (if c.UserID = "" then 1 else 0) +
        (if c.PrivateKey = "" then 1 else 0)
    ∧ (∀ p : String, validateConfig { c with Passphrase := p } = validateConfig c) := by
  by_cases h1 : c.TenancyID = "" <;> by_cases h2 : c.Region = "" <;>
    by_cases h3 : c.Fingerprint = "" <;> by_cases h4 : c.UserID = "" <;>
    by_cases h5 : c.PrivateKey = "" <;>
    simp [AuthConfig.Validate, validateConfig, string_length_eq_zero,
      h1, h2, h3, h4, h5]

/-! ## Service-layer lemmas -/

theorem getSecretBundle_calls_len (client : OCISecretClient) (vaultID : String)
    (r : SecretBundleRequest) :
    (getSecretBundle client vaultID r).calls.length ≤ 1 := by
  unfold getSecretBundle
  split
  · simp
  · split <;> dsimp only <;> split <;> (try split) <;> simp

theorem getSecretBundle_invalid (client : OCISecretClient) (vaultID : String)
    (r : SecretBundleRequest)
    (h : r.Name = "" ∨ (r.VersionNumber ≠ 0 ∧ r.Stage ≠ Stage.None)) :
    (getSecretBundle client vaultID r).calls = []
    ∧ ∃ e, (getSecretBundle client vaultID r).result = Except.error e := by
  by_cases h1 : r.Name = ""
  · refine ⟨?_, "missed secret name", ?_⟩ <;> simp [getSecretBundle, h1]
  · rcases h with h | ⟨hv, hs⟩
    · exact absurd h h1
    · have hm : ¬(r.VersionNumber = 0 ∧ r.Stage = Stage.None) := fun hc => hv hc.1
      refine ⟨?_, "secret should be identified either with a version number or with stage", ?_⟩ <;>
        simp [getSecretBundle, h1, hm, hv, hs]

theorem mapOCIResponseToSecretBundle_ok (response : OCIResponse)
    (request : SecretBundleRequest) (b : SecretBundle)
    (h : mapOCIResponseToSecretBundle response request = Except.ok b) :
    b.Name = request.Name ∧ b.FileName = request.FileName := by
  unfold mapOCIResponseToSecretBundle at h
  rcases hcd : response.ContentDetails with content | _ <;> rw [hcd] at h
  · rcases hms : mapStagesFromStrings response.Stages with e | stages <;> rw [hms] at h
    · cases h
    · cases h
      exact ⟨rfl, rfl⟩
  · cases h

theorem getSecretBundle_ok_name (client : OCISecretClient) (vaultID : String)
    (r : SecretBundleRequest) (b : SecretBundle)
    (h : (getSecretBundle client vaultID r).result = Except.ok b) :
    r.Name ≠ "" := by
  intro h1
  simp [getSecretBundle, h1] at h

theorem getSecretBundle_ok_fields (client : OCISecretClient) (vaultID : String)
    (r : SecretBundleRequest) (b : SecretBundle)
    (h : (getSecretBundle client vaultID r).result = Except.ok b) :
    b.Name = r.Name ∧ b.FileName = r.FileName := by
  have h1 : ¬r.Name = "" := getSecretBundle_ok_name client vaultID r b h
  rw [getSecretBundle] at h
  rw [if_neg h1] at h
  set r2 := if r.VersionNumber = 0 ∧ r.Stage = Stage.None
    then { r with Stage := Stage.Current } else r with hr2
  have hfields : r2.Name = r.Name ∧ r2.FileName = r.FileName := by
    rw [hr2]; split <;> exact ⟨rfl, rfl⟩
  simp only at h
  split at h
  · cases h
  · split at h
    · cases h
    · have := mapOCIResponseToSecretBundle_ok _ _ _ h
      exact ⟨this.1.trans hfields.1, this.2.trans hfields.2⟩

theorem getSecretBundle_req_of_name (client : OCISecretClient) (vaultID : String)
    (r : SecretBundleRequest) (h1 : ¬r.Name = "") :
    (getSecretBundle client vaultID r).req =
      (if r.VersionNumber = 0 ∧ r.Stage = Stage.None
        then { r with Stage := Stage.Current } else r) := by
  unfold getSecretBundle
  rw [if_neg h1]
  by_cases hm : r.VersionNumber = 0 ∧ r.Stage = Stage.None
  · rw [if_pos hm]
    dsimp only
    split <;> (try split) <;> rfl
  · rw [if_neg hm]
    dsimp only
    split <;> (try split) <;> rfl

theorem runRequests_error_mem (client : OCISecretClient) (vaultID : String)
    (l : List SecretBundleRequest) (r : SecretBundleRequest) (e : String)
    (hr : r ∈ l) (herr : (getSecretBundle client vaultID r).result = Except.error e) :
    ∃ e2, (runRequests client vaultID l).result = Except.error e2 := by
  induction l with
  | nil => cases hr
  | cons head tail ih =>
    rcases List.mem_cons.mp hr with rfl | htail
    · exact ⟨e, by simp [runRequests, herr]⟩
    · cases hgr : (getSecretBundle client vaultID head).result with
      | error e3 => exact ⟨e3, by simp [runRequests, hgr]⟩
      | ok b =>
        obtain ⟨e2, h2⟩ := ih htail
        exact ⟨e2, by simp [runRequests, hgr, h2]⟩

theorem runRequests_ok_forallTwo (client : OCISecretClient) (vaultID : String) :
    ∀ (l : List SecretBundleRequest) (bundles : List SecretBundle),
      (runRequests client vaultID l).result = Except.ok bundles →
      List.Forall₂ (fun r b => (getSecretBundle client vaultID r).result = Except.ok b)
        l bundles := by
  intro l
  induction l with
  | nil =>
    intro bundles h
    simp only [runRequests] at h
    cases h
    exact List.Forall₂.nil
  | cons head tail ih =>
    intro bundles h
    cases hgr : (getSecretBundle client vaultID head).result with
    | error e => simp [runRequests, hgr] at h
    | ok b =>
      simp only [runRequests, hgr] at h
      cases hout : (runRequests client vaultID tail).result with
      | error e => rw [hout] at h; cases h
      | ok bs =>
        rw [hout] at h
        cases h
        exact List.Forall₂.cons hgr (ih bs hout)

theorem runRequests_ok_requests (client : OCISecretClient) (vaultID : String) :
    ∀ (l : List SecretBundleRequest) (bundles : List SecretBundle),
      (runRequests client vaultID l).result = Except.ok bundles →
      (runRequests client vaultID l).requests =
        l.map (fun r => (getSecretBundle client vaultID r).req) := by
  intro l
  induction l with
  | nil => intro bundles _; rfl
  | cons head tail ih =>
    intro bundles h
    cases hgr : (getSecretBundle client vaultID head).result with
    | error e => simp [runRequests, hgr] at h
    | ok b =>
      simp only [runRequests, hgr] at h ⊢
      cases hout : (runRequests client vaultID tail).result with
      | error e => rw [hout] at h; cases h
      | ok bs => rw [ih bs hout]; simp

theorem runRequests_calls_stop (client : OCISecretClient) (vaultID : String)
    (bad : SecretBundleRequest)
    (hcalls : (getSecretBundle client vaultID bad).calls = [])
    (herr : ∃ e, (getSecretBundle client vaultID bad).result = Except.error e) :
    ∀ (pre post : List SecretBundleRequest),
      (runRequests client vaultID (pre ++ bad :: post)).calls.length ≤ pre.length := by
  intro pre
  induction pre with
  | nil =>
    intro post
    obtain ⟨e, he⟩ := herr
    simp [runRequests, he, hcalls]
  | cons p ps ih =>
    intro post
    cases hgr : (getSecretBundle client vaultID p).result with
    | error e =>
      simp only [List.cons_append, runRequests, hgr]
      calc (getSecretBundle client vaultID p).calls.length
          ≤ 1 := getSecretBundle_calls_len client vaultID p
        _ ≤ ps.length + 1 := by omega
        _ = (p :: ps).length := by simp
    | ok b =>
      simp only [List.cons_append, runRequests, hgr, List.length_append, List.length_cons]
      have h1 := getSecretBundle_calls_len client vaultID p
      have h2 := ih post
      exact le_trans (Nat.add_le_add h1 h2) (by omega)

theorem GetSecretBundles_ok_run (client : OCISecretClient)
    (requests : List SecretBundleRequest) (vaultID : String)
    (bundles : List SecretBundle)
    (h : (GetSecretBundles client requests vaultID).result = Except.ok bundles) :
    (runRequests client vaultID requests).result = Except.ok bundles
    ∧ (GetSecretBundles client requests vaultID).requests =
        (runRequests client vaultID requests).requests := by
  unfold GetSecretBundles at h ⊢
  split at h
  · cases h
  · rename_i hlen
    split at h
    · cases h
    · rw [if_neg hlen]
      exact ⟨h, rfl⟩

/-! ## Claim C1 -/

/-- Claim C1: if at least one request of the batch fails to resolve (the
remote fetch fails, a remote stage token is unrecognized, or the content has
an unexpected shape), GetSecretBundles returns a single error and no bundles
at all, never a partial list. -/
theorem C1_atomicity (client : OCISecretClient) (vaultID : String)
    (requests : List SecretBundleRequest) (r : SecretBundleRequest) (e : String)
    (hr : r ∈ requests)
    (herr : (getSecretBundle client vaultID r).result = Except.error e) :
    ∃ e2, (GetSecretBundles client requests vaultID).result = Except.error e2 := by
  unfold GetSecretBundles
  split
  · exact ⟨_, rfl⟩
  · split
    · exact ⟨_, rfl⟩
    · exact runRequests_error_mem client vaultID requests r e hr herr

/-- Witness for C1: a batch whose only fetch fails yields an error. -/
theorem C1_witness :
    ∃ e2, (GetSecretBundles failClient [reqA] "vault1").result = Except.error e2 :=
  C1_atomicity failClient "vault1" [reqA] reqA
    "unable to retrieve secret from vault" (by decide) (by decide)

/-! ## Claim C9 -/

/-- Claim C9: GetSecretBundles mutates its input: on a successful resolution,
every request that had versionNumber unset (zero) and stage None has
Stage = Current written into the caller-visible request object, so the batch
no longer records that the stage was originally absent. -/
theorem C9_request_mutation (client : OCISecretClient) (vaultID : String)
    (requests : List SecretBundleRequest) (bundles : List SecretBundle)
    (h : (GetSecretBundles client requests vaultID).result = Except.ok bundles) :
    (GetSecretBundles client requests vaultID).requests =
      requests.map (fun r =>
        if r.VersionNumber = 0 ∧ r.Stage = Stage.None
        then { r with Stage := Stage.Current } else r) := by
  obtain ⟨hrun, hreq⟩ := GetSecretBundles_ok_run client requests vaultID bundles h
  rw [hreq, runRequests_ok_requests client vaultID requests bundles hrun]
  apply List.map_congr_left
  intro r hrmem
  obtain ⟨b, hb⟩ :=
    forallTwo_mem_left (runRequests_ok_forallTwo client vaultID requests bundles hrun) r hrmem
  exact getSecretBundle_req_of_name client vaultID r
    (getSecretBundle_ok_name client vaultID r b hb)

/-- Witness for C9: a request with neither stage nor version comes back from
a successful call with stage Current. -/
theorem C9_witness :
    (GetSecretBundles okClient [c9req] "vault1").requests =
      [{ c9req with Stage := Stage.Current }] :=
  (C9_request_mutation okClient "vault1" [c9req] [c9bundle] (by decide)).trans (by decide)

/-! ## Claim C3 -/

/-- Counterexample for claim C3 as stated: in the batch [reqA, reqBoth] the
second request has both stage and versionNumber set, and the batch is
rejected with the ambiguous-identifier error, but a remote fetch HAS been
issued for the request preceding the invalid one, so the rejection does not
happen before any network call. -/
theorem C3_counterexample :
    (GetSecretBundles okClient [reqA, reqBoth] "vault1").result =
      Except.error "secret should be identified either with a version number or with stage"
    ∧ (GetSecretBundles okClient [reqA, reqBoth] "vault1").calls =
        [{ SecretName := "a", VaultId := "vault1", VersionNumber := none,
           Stage := "CURRENT" }] :=
  ⟨by decide, by decide⟩

/-- Claim C3 (amended): a request with both stage and versionNumber set (or
with an empty name) always causes the whole batch to be rejected, and no
remote fetch is ever issued for the invalid request itself or for any request
after it; however, fetches for requests preceding the invalid one may already
have been issued. -/
theorem C3_validation_rejection (client : OCISecretClient) (vaultID : String)
    (pre post : List SecretBundleRequest) (bad : SecretBundleRequest)
    (hbad : bad.Name = "" ∨ (bad.VersionNumber ≠ 0 ∧ bad.Stage ≠ Stage.None)) :
    (∃ e, (GetSecretBundles client (pre ++ bad :: post) vaultID).result =
      Except.error e)
    ∧ (GetSecretBundles client (pre ++ bad :: post) vaultID).calls.length ≤
        pre.length := by
  obtain ⟨hcalls, e, herr⟩ := getSecretBundle_invalid client vaultID bad hbad
  constructor
  · unfold GetSecretBundles
    split
    · exact ⟨_, rfl⟩
    · split
      · exact ⟨_, rfl⟩
      · exact runRequests_error_mem client vaultID _ bad e (by simp) herr
  · unfold GetSecretBundles
    split
    · simp
    · split
      · simp
      · exact runRequests_calls_stop client vaultID bad hcalls ⟨e, herr⟩ pre post

/-- Witness for C3 (amended) on the concrete batch [reqA, reqBoth]. -/
theorem C3_witness :
    (∃ e, (GetSecretBundles okClient [reqA, reqBoth] "vault1").result =
      Except.error e)
    ∧ (GetSecretBundles okClient [reqA, reqBoth] "vault1").calls.length ≤ 1 :=
  C3_validation_rejection okClient "vault1" [reqA] [] reqBoth
    (Or.inr ⟨by decide, by decide⟩)

/-! ## Claim C2 -/

theorem checkAux_none_iff :
    ∀ (l : List SecretBundleRequest) (seen : List String),
      checkNameDuplicationAux seen l = none ↔
        ((l.map SecretBundleRequest.GetFilePath).Nodup
          ∧ ∀ f ∈ l.map SecretBundleRequest.GetFilePath, f ∉ seen) := by
  intro l
  induction l with
  | nil => intro seen; simp [checkNameDuplicationAux]
  | cons r rest ih =>
    intro seen
    by_cases hm : r.GetFilePath ∈ seen
    · constructor
      · intro h
        exfalso
        simp only [checkNameDuplicationAux] at h
        rw [if_pos hm] at h
        split at h <;> simp at h
      · rintro ⟨hnodup, hdisj⟩
        exact absurd hm (hdisj r.GetFilePath (by simp))
    · simp only [checkNameDuplicationAux]
      rw [if_neg hm, ih (r.GetFilePath :: seen)]
      constructor
      · rintro ⟨hnd, hd⟩
        refine ⟨?_, ?_⟩
        · rw [List.map_cons, List.nodup_cons]
          refine ⟨?_, hnd⟩
          intro hmem
          exact (hd _ hmem) (List.mem_cons_self _ _)
        · intro f hf
          rw [List.map_cons, List.mem_cons] at hf
          rcases hf with rfl | hf
          · exact hm
          · intro hfseen
            exact (hd f hf) (List.mem_cons_of_mem _ hfseen)
      · rintro ⟨hnd, hd⟩
        rw [List.map_cons, List.nodup_cons] at hnd
        refine ⟨hnd.2, ?_⟩
        intro f hf hmem2
        rcases List.mem_cons.mp hmem2 with rfl | hfseen
        · exact hnd.1 hf
        · exact hd f (by rw [List.map_cons]; exact List.mem_cons_of_mem _ hf) hfseen

theorem checkAux_found :
    ∀ (pre : List SecretBundleRequest) (seen : List String)
      (r : SecretBundleRequest) (rest : List SecretBundleRequest),
      (pre.map SecretBundleRequest.GetFilePath).Nodup →
      (∀ f ∈ pre.map SecretBundleRequest.GetFilePath, f ∉ seen) →
      (r.GetFilePath ∈ seen ∨ r.GetFilePath ∈ pre.map SecretBundleRequest.GetFilePath) →
      checkNameDuplicationAux seen (pre ++ r :: rest) =
        some (if r.GetFilePath = r.Name then "duplicated secret name: " ++ r.Name
              else "duplicated fileName name: " ++ r.FileName) := by
  intro pre
  induction pre with
  | nil =>
    intro seen r rest _ _ hmem
    rcases hmem with hmem | hmem
    · rw [List.nil_append]
      simp only [checkNameDuplicationAux]
      rw [if_pos hmem]
      split <;> rfl
    · simp at hmem
  | cons p ps ih =>
    intro seen r rest hnd hdisj hmem
    have hp : p.GetFilePath ∉ seen := hdisj _ (by simp)
    rw [List.cons_append]
    simp only [checkNameDuplicationAux]
    rw [if_neg hp]
    apply ih (p.GetFilePath :: seen) r rest
    · rw [List.map_cons, List.nodup_cons] at hnd
      exact hnd.2
    · intro f hf hmem2
      rcases List.mem_cons.mp hmem2 with heq | hseen
      · rw [List.map_cons, List.nodup_cons] at hnd
        exact hnd.1 (heq ▸ hf)
      · exact hdisj f (by rw [List.map_cons]; exact List.mem_cons_of_mem _ hf) hseen
    · rcases hmem with hseen | hpre
      · exact Or.inl (List.mem_cons_of_mem _ hseen)
      · rw [List.map_cons] at hpre
        rcases List.mem_cons.mp hpre with heq | hps
        · exact Or.inl (heq ▸ List.mem_cons_self _ _)
        · exact Or.inr hps

/-- Counterexample for claim C2 as stated: in the batch [c2a, c2b] the two
entries share the effective path "bar", which is NOT the raw secret name of
both colliding entries (c2a is named "foo"), yet the duplicate-NAME error is
reported instead of the duplicate-alias error the claim requires. -/
theorem C2_counterexample :
    checkNameDuplication [c2a, c2b] = some "duplicated secret name: bar"
    ∧ c2a.GetFilePath = "bar"
    ∧ c2b.GetFilePath = "bar"
    ∧ c2a.Name = "foo"
    ∧ ¬(c2a.GetFilePath = c2a.Name) := by
  refine ⟨by decide, by decide, by decide, by decide, by decide⟩

/-- Claim C2 (amended): duplication checking succeeds exactly when the
effective output paths of the batch are pairwise distinct (entries are never
silently deduplicated); on the first later entry whose path collides with an
earlier one, resolution fails, with the duplicate-name error if the colliding
path equals the raw secret name of THAT later entry, and otherwise the
duplicate-alias error naming that entry's fileName; the error returned by
checkNameDuplication is the one GetSecretBundles returns. -/
theorem C2_duplication_rule (requests : List SecretBundleRequest) :
    (checkNameDuplication requests = none ↔
      (requests.map SecretBundleRequest.GetFilePath).Nodup)
    ∧ (∀ pre r rest, requests = pre ++ r :: rest →
        (pre.map SecretBundleRequest.GetFilePath).Nodup →
        r.GetFilePath ∈ pre.map SecretBundleRequest.GetFilePath →
        checkNameDuplication requests =
          some (if r.GetFilePath = r.Name
                then "duplicated secret name: " ++ r.Name
                else "duplicated fileName name: " ++ r.FileName))
    ∧ (∀ e client vaultID, checkNameDuplication requests = some e →
        (GetSecretBundles client requests vaultID).result = Except.error e) := by
  refine ⟨?_, ?_, ?_⟩
  · rw [checkNameDuplication, checkAux_none_iff requests []]
    simp
  · intro pre r rest hreq hnd hmem
    subst hreq
    exact checkAux_found pre [] r rest hnd (by simp) (Or.inr hmem)
  · intro e client vaultID hdup
    unfold GetSecretBundles
    split
    · rename_i hlen
      rw [List.length_eq_zero] at hlen
      subst hlen
      simp [checkNameDuplication, checkNameDuplicationAux] at hdup
    · rw [hdup]

/-- Witness for C2 (amended): a later entry whose alias collides with an
earlier name yields the duplicated-fileName error. -/
theorem C2_witness :
    checkNameDuplication [c2c, c2d] = some "duplicated fileName name: a" :=
  ((C2_duplication_rule [c2c, c2d]).2.1 [c2c] c2d [] rfl (by decide)
    (by decide)).trans (by decide)

/-! ## Claim C4 -/

theorem listGet_map {α β : Type} (f : α → β) (l : List α) (i : Nat)
    (h1 : i < (l.map f).length) (h2 : i < l.length) :
    (l.map f).get ⟨i, h1⟩ = f (l.get ⟨i, h2⟩) := by
  induction l generalizing i with
  | nil => cases h2
  | cons a as ih =>
    cases i with
    | zero => rfl
    | succ n => exact ih n (by simpa using h1) (by simpa using h2)

theorem createResponseAux_ok (perm : Int) :
    ∀ (bundles : List SecretBundle) (fvs : List (File × ObjectVersion)),
      createResponseAux perm bundles = Except.ok fvs →
      List.Forall₂ (fun b fv => mapBundleToSecretResponse b perm = Except.ok fv)
        bundles fvs := by
  intro bundles
  induction bundles with
  | nil =>
    intro fvs h
    simp only [createResponseAux] at h
    cases h
    exact List.Forall₂.nil
  | cons b rest ih =>
    intro fvs h
    simp only [createResponseAux] at h
    split at h
    · cases h
    · rename_i fv hmb
      split at h
      · cases h
      · rename_i fvs2 haux
        cases h
        exact List.Forall₂.cons hmb (ih fvs2 haux)

theorem createResponse_ok (bundles : List SecretBundle) (perm : Int)
    (resp : MountResponse) (h : createResponse bundles perm = Except.ok resp) :
    ∃ fvs, createResponseAux perm bundles = Except.ok fvs
      ∧ resp = { Files := fvs.map Prod.fst, ObjectVersion := fvs.map Prod.snd } := by
  unfold createResponse at h
  split at h
  · cases h
  · rename_i fvs haux
    cases h
    exact ⟨fvs, haux, rfl⟩

theorem mapBundleToSecretResponse_ok (b : SecretBundle) (perm : Int)
    (fv : File × ObjectVersion)
    (h : mapBundleToSecretResponse b perm = Except.ok fv) :
    fv.1.Path = b.GetFilePath
    ∧ fv.1.Contents = (b.BundleContent.Decode).1
    ∧ fv.1.Mode = perm
    ∧ fv.2.Id = b.ID
    ∧ fv.2.Version = ToString.toString b.VersionNumber := by
  unfold mapBundleToSecretResponse at h
  split at h
  · cases h
  · rename_i secretContent heq
    cases h
    refine ⟨rfl, ?_, rfl, rfl, rfl⟩
    rw [heq]

/-- Counterexample for claim C4 as stated: a successful mount of the single
request c4req, whose alias " x " is non-empty, produces the file path "x"
(the TRIMMED alias) and not the alias " x " itself, so files[i].path is not
"the alias if non-empty". -/
theorem C4_counterexample :
    (GetSecretBundles okClient [c4req] "vault1").result = Except.ok [c4bundle]
    ∧ createResponse [c4bundle] 420 = Except.ok c4resp
    ∧ c4req.FileName = " x "
    ∧ (" x " : String) ≠ ""
    ∧ c4resp.Files.map File.Path = ["x"]
    ∧ ("x" : String) ≠ " x " := by
  refine ⟨by decide, by decide, by decide, by decide, by decide, by decide⟩

/-- Claim C4 (amended): for every successful resolution of a batch of N
requests followed by a successful response assembly, the response has exactly
N file entries and N version entries, strictly index-aligned with the
original request order: files[i].path is the effective path of the i-th
request (the trimmed alias when the trimmed alias is non-empty, else the
trimmed name), files[i].content is the i-th bundle's decoded plaintext,
files[i].mode is the requested permission, versions[i].id is the remote id
and versions[i].version is the decimal string of the remote version
number. -/
theorem C4_index_alignment (client : OCISecretClient) (vaultID : String)
    (requests : List SecretBundleRequest) (perm : Int)
    (bundles : List SecretBundle) (resp : MountResponse)
    (hres : (GetSecretBundles client requests vaultID).result = Except.ok bundles)
    (hcr : createResponse bundles perm = Except.ok resp) :
    bundles.length = requests.length
    ∧ resp.Files.length = requests.length
    ∧ resp.ObjectVersion.length = requests.length
    ∧ ∀ (i : Nat) (h1 : i < requests.length) (h2 : i < bundles.length)
        (h3 : i < resp.Files.length) (h4 : i < resp.ObjectVersion.length),
        (resp.Files.get ⟨i, h3⟩).Path =
          determineFileName (requests.get ⟨i, h1⟩).Name (requests.get ⟨i, h1⟩).FileName
        ∧ (resp.Files.get ⟨i, h3⟩).Contents =
            ((bundles.get ⟨i, h2⟩).BundleContent.Decode).1
        ∧ (resp.Files.get ⟨i, h3⟩).Mode = perm
        ∧ (resp.ObjectVersion.get ⟨i, h4⟩).Id = (bundles.get ⟨i, h2⟩).ID
        ∧ (resp.ObjectVersion.get ⟨i, h4⟩).Version =
            ToString.toString (bundles.get ⟨i, h2⟩).VersionNumber := by
  obtain ⟨hrun, _⟩ := GetSecretBundles_ok_run client requests vaultID bundles hres
  have hf2 := runRequests_ok_forallTwo client vaultID requests bundles hrun
  have hlen1 : requests.length = bundles.length := hf2.length_eq
  obtain ⟨fvs, haux, hresp⟩ := createResponse_ok bundles perm resp hcr
  have hf3 := createResponseAux_ok perm bundles fvs haux
  have hlen2 : bundles.length = fvs.length := hf3.length_eq
  subst hresp
  refine ⟨hlen1.symm, ?_, ?_, ?_⟩
  · simp only [List.length_map]
    omega
  · simp only [List.length_map]
    omega
  · intro i h1 h2 h3 h4
    have h5 : i < fvs.length := by
      simp only [List.length_map] at h3
      exact h3
    have hreq_b := hf2.get h1 h2
    have hb_fv := hf3.get h2 h5
    obtain ⟨hp, hc, hmode, hid, hv⟩ :=
      mapBundleToSecretResponse_ok (bundles.get ⟨i, h2⟩) perm (fvs.get ⟨i, h5⟩) hb_fv
    obtain ⟨hbn, hbf⟩ :=
      getSecretBundle_ok_fields client vaultID (requests.get ⟨i, h1⟩)
        (bundles.get ⟨i, h2⟩) hreq_b
    refine ⟨?_, ?_, ?_, ?_, ?_⟩
    · rw [listGet_map Prod.fst fvs i h3 h5, hp, SecretBundle.GetFilePath, hbn, hbf]
    · rw [listGet_map Prod.fst fvs i h3 h5, hc]
    · rw [listGet_map Prod.fst fvs i h3 h5, hmode]
    · rw [listGet_map Prod.snd fvs i h4 h5, hid]
    · rw [listGet_map Prod.snd fvs i h4 h5, hv]

/-- Witness for C4 (amended) on the single-request batch [c4req]: one bundle
for one request, and the file entry at index 0 carries the effective path of
the request. -/
theorem C4_witness :
    ([c4bundle] : List SecretBundle).length = ([c4req] : List SecretBundleRequest).length
    ∧ (c4resp.Files.get ⟨0, by decide⟩).Path =
        determineFileName (([c4req].get ⟨0, by decide⟩).Name)
          (([c4req].get ⟨0, by decide⟩).FileName) := by
  have h := C4_index_alignment okClient "vault1" [c4req] 420 [c4bundle] c4resp
    (by decide) (by decide)
  exact ⟨h.1, (h.2.2.2 0 (by decide) (by decide) (by decide) (by decide)).1⟩

/-! ## Claim C10 -/

/-- Claim C10: on malformed base64 input, Decode returns the partially
decoded prefix together with a non-nil error: the returned string can be
non-empty although the call failed, and the caller (mapBundleToSecretResponse)
distinguishes success only by the error value. -/
theorem C10_partial_decode :
    SecretBundleContent.Decode { ContentType := Base64, Content := "QUJD!" } =
      ("ABC", some "illegal base64 data")
    ∧ ("ABC" : String) ≠ ""
    ∧ mapBundleToSecretResponse c10bundle 420 = Except.error "illegal base64 data" :=
  ⟨by decide, by decide, by decide⟩

end OCIProvider
